import Mathlib

/-!
Verification of the PYNQ-Utils repository (Xilinx/PYNQ-Utils).

This file gives a shallow embedding, in Lean 4, of the parts of the
repository that the verified properties talk about:

* `pynqutils/setup_utils/deliver_notebooks.py` — overlay resource
  resolution (`_find_local_overlay_res`, `_find_remote_overlay_res`,
  `_resolve_overlay_res_from_link`, `_resolve_overlay_res_from_folder`),
  the copy/move phase and its roll-back (`_copy_and_move_files`,
  `_roll_back_copy`), and the downloader (`_download_file`).
* `pynqutils/setup_utils/download_overlays.py` — the per-`.link`
  resolution driven by detected devices (`_resolve_devices_overlay_res`).
* `pynqutils/build_utils/xsa_parser.py` — the lazy zip-member extractor
  (`Xsa.__path`).
* `pynqutils/runtime/detect_devices.py` — the `xbutil examine` output
  parser (`detect_devices`).
* `pynqutils/runtime/logging.py` — the severity-driven formatter and the
  `get_logger` singleton.
* `pynqutils/build_utils/boardstore.py` — the board.xml version/part
  parsing (`resolve_paths`, `resolve_version`, `find_part`,
  `file_version`, `Board.__init__`).

Python filesystem paths are embedded either as plain `String`s (when the
code only joins and compares them) or as `List String` component lists
(when the code walks parent chains).  Filesystem, network and process
effects are embedded as explicit state passing: the state a Python
function reads is a parameter, the state it writes is (part of) the
result.  Python exceptions are embedded with `Except`/`Option`.
-/

namespace PynqUtils

/-! ## String utilities shared by several modules

All character-level work is done on `List Char` (`String.data`), because
those functions reduce in the kernel.  The Python originals are
`os.path.splitext`, `os.path.join` and `str.endswith`.
-/

/-- Index of the last occurrence of `c` in `l`, or `none`.
Embeds Python's `str.rfind` (which returns `-1` when absent). -/
def rfindIdx (c : Char) (l : List Char) : Option Nat :=
  match l.reverse.findIdx? (fun x => x = c) with
  | none => none
  | some j => some (l.length - 1 - j)

/-- `os.path.splitext` (posixpath): split at the last dot of the final
path component, unless every character between the last `/` and that dot
is itself a dot (hidden files such as `.link` keep their name whole). -/
def splitext (s : String) : String × String :=
  let p := s.data
  let sepIdx : Option Nat := rfindIdx '/' p
  match rfindIdx '.' p with
  | none => (s, "")
  | some dotIdx =>
    let afterSep : Nat := match sepIdx with | none => 0 | some i => i + 1
    if afterSep ≤ dotIdx ∧
        ((p.drop afterSep).take (dotIdx - afterSep)).any (fun ch => ch ≠ '.') then
      (⟨p.take dotIdx⟩, ⟨p.drop dotIdx⟩)
    else (s, "")

/-- `os.path.join` (posixpath) for two components, as used by the
repository: the second component is never absolute there. -/
def ospJoin (a b : String) : String :=
  if a = "" then b
  else if a.data.getLast? = some '/' then a ++ b
  else a ++ "/" ++ b

/-- `str.endswith`, computed on the underlying character lists. -/
def strEndsWith (s suffix : String) : Bool :=
  suffix.data.isSuffixOf s.data

example : splitext "overlay_res.ext.link" = ("overlay_res.ext", ".link") := by decide
example : splitext "overlay_res.ext.d" = ("overlay_res.ext", ".d") := by decide
example : splitext "overlay_res.ext" = ("overlay_res", ".ext") := by decide
example : splitext ".link" = (".link", "") := by decide
example : splitext "plain" = ("plain", "") := by decide
example : ospJoin "src" "base.bit" = "src/base.bit" := by decide
example : strEndsWith "base.bit.link" ".link" = true := by decide

/-! ## JSON values

`.link` manifests are JSON objects; `json.load` turns them into Python
dicts.  A dict is embedded as an association list with distinct keys,
looked up by first match (Python dict keys are unique). -/

inductive Json where
  | null
  | str (s : String)
  | bool (b : Bool)
  | num (n : Int)
  | obj (fields : List (String × Json))
  | arr (elems : List Json)

/-- Membership/lookup in a JSON object (`key in d` / `d[key]`). -/
def jLookup (k : String) : List (String × Json) → Option Json
  | [] => none
  | (k', v) :: rest => if k' = k then some v else jLookup k rest

namespace DeliverNotebooks

/-- `_find_remote_overlay_res` of `deliver_notebooks.py`: read the
`.link` manifest (here: already parsed to the dict `links`), return the
top-level `{url, md5sum}` pair if both keys are present, otherwise the
entry for `device_name` if present, otherwise `None`.  `device_name` may
be Python `None` (passed by `_resolve_global_overlay_res`), in which
case `device_name in links` is false for a string-keyed dict. -/
def _find_remote_overlay_res (device_name : Option String)
    (links : List (String × Json)) : Option Json :=
  match jLookup "url" links, jLookup "md5sum" links with
  | some u, some m => some (Json.obj [("url", u), ("md5sum", m)])
  | _, _ =>
    match device_name with
    | some d => jLookup d links
    | none => none

/-- Possible outcomes of a `_download_file` call made by
`_resolve_overlay_res_from_link`: success, a
`DownloadedFileChecksumError`, or any other exception (network errors
and the like, which `_resolve_overlay_res_from_link` does not catch). -/
inductive DownloadOutcome where
  | ok
  | checksumError
  | otherError
  deriving DecidableEq

/-- The environment a notebook-delivery run reads.  `isFile` is
`os.path.isfile`; `linkContent` maps the path of an `overlay_res.ext.link`
file to its parsed JSON manifest (`json.load(open(path))`); `download`
is the outcome of `_download_file` on the `{url, md5sum, ...}` dict that
`_find_remote_overlay_res` produced (the download itself is network
I/O, so only its outcome is embedded — `_download_file`'s internals are
embedded separately below); `tmpFile` is the `tempfile.mkstemp()` name. -/
structure DeliverEnv where
  isFile : String → Bool
  linkContent : String → List (String × Json)
  download : Json → DownloadOutcome
  tmpFile : String

/-- Exceptions escaping the embedded `deliver_notebooks` helpers. -/
inductive PyExc where
  | overlayNotFound (name : String)
  | indexError
  | other
  deriving DecidableEq

/-- `_find_local_overlay_res`: prefer an existing
`src_path/overlay_res.ext`; otherwise look for
`src_path/overlay_res.ext.d/overlay_res.device_name.ext`; otherwise
`None`. -/
def _find_local_overlay_res (isFile : String → Bool)
    (device_name overlay_res_filename src_path : String) : Option String :=
  let overlay_res_path := ospJoin src_path overlay_res_filename
  if isFile overlay_res_path then some overlay_res_path
  else
    let sp := splitext overlay_res_filename
    let overlay_res_filename_ext := sp.1 ++ "." ++ device_name ++ sp.2
    let overlay_res_path2 :=
      ospJoin (ospJoin src_path (overlay_res_filename ++ ".d"))
        overlay_res_filename_ext
    if isFile overlay_res_path2 then some overlay_res_path2 else none

/-- `_resolve_overlay_res_from_link`: try the local resolution first; on
failure consult the `.link` manifest for `device_name` and download.  A
successful local resolution contributes a `files_to_copy` entry, a
successful download contributes a `files_to_move` entry (from the
temporary file), a `DownloadedFileChecksumError` or a missing manifest
entry raises `OverlayNotFoundError`, and any other download exception
propagates. -/
def _resolve_overlay_res_from_link (env : DeliverEnv)
    (device_name overlay_res_link src_path dst_path rel_path : String) :
    Except PyExc (List (String × String) × List (String × String)) :=
  let overlay_res_filename := (splitext overlay_res_link).1
  let overlay_res_dst_path :=
    ospJoin (ospJoin dst_path rel_path) overlay_res_filename
  match _find_local_overlay_res env.isFile device_name overlay_res_filename
      src_path with
  | some overlay_res_src_path =>
    Except.ok ([(overlay_res_src_path, overlay_res_dst_path)], [])
  | none =>
    match _find_remote_overlay_res (some device_name)
        (env.linkContent (ospJoin src_path overlay_res_link)) with
    | some d =>
      match env.download d with
      | DownloadOutcome.ok =>
        Except.ok ([], [(env.tmpFile, overlay_res_dst_path)])
      | DownloadOutcome.checksumError =>
        Except.error (PyExc.overlayNotFound overlay_res_filename)
      | DownloadOutcome.otherError => Except.error PyExc.other
    | none => Except.error (PyExc.overlayNotFound overlay_res_filename)

/-- `_resolve_overlay_res_from_folder`: handle a bare
`overlay_res.ext.d` folder.  If a sibling `.link` file exists the folder
is skipped (the `.link` handling covers it); otherwise a local
resolution is attempted and its failure raises `OverlayNotFoundError`. -/
def _resolve_overlay_res_from_folder (env : DeliverEnv)
    (device_name overlay_res_folder src_path dst_path rel_path : String) :
    Except PyExc (List (String × String)) :=
  let overlay_res_filename := (splitext overlay_res_folder).1
  if env.isFile (ospJoin src_path (overlay_res_filename ++ ".link")) then
    Except.ok []
  else
    match _find_local_overlay_res env.isFile device_name
        overlay_res_filename src_path with
    | some overlay_res_src_path =>
      Except.ok [(overlay_res_src_path,
        ospJoin (ospJoin dst_path rel_path) overlay_res_filename)]
    | none => Except.error (PyExc.overlayNotFound overlay_res_filename)

/-- The `for d in dirs` loop of `deliver_notebooks` (lines 92–105):
`.d` folders go through `_resolve_overlay_res_from_folder` when lookup
is enabled, `__pycache__` is skipped, every other folder becomes a
`files_to_copy` entry.  Entries are accumulated in loop order; the
Python dict keys involved are pairwise distinct paths, so insertion
order is list order. -/
def process_dirs (env : DeliverEnv)
    (device_name root dst_fullpath relpath : String)
    (overlays_res_lookup : Bool) :
    List String → Except PyExc (List (String × String))
  | [] => Except.ok []
  | d :: ds =>
    if strEndsWith d ".d" then
      if overlays_res_lookup then
        match _resolve_overlay_res_from_folder env device_name d root
            dst_fullpath relpath with
        | Except.error e => Except.error e
        | Except.ok adds =>
          match process_dirs env device_name root dst_fullpath relpath
              overlays_res_lookup ds with
          | Except.error e => Except.error e
          | Except.ok rest => Except.ok (adds ++ rest)
      else process_dirs env device_name root dst_fullpath relpath
        overlays_res_lookup ds
    else if d ≠ "__pycache__" then
      match process_dirs env device_name root dst_fullpath relpath
          overlays_res_lookup ds with
      | Except.error e => Except.error e
      | Except.ok rest =>
        Except.ok ((ospJoin root d, ospJoin (ospJoin dst_fullpath relpath) d)
          :: rest)
    else process_dirs env device_name root dst_fullpath relpath
      overlays_res_lookup ds

/-- The `for f in files` loop of `deliver_notebooks` (lines 106–121):
`.link` files go through `_resolve_overlay_res_from_link` when lookup is
enabled, every other file becomes a `files_to_copy` entry. -/
def process_files (env : DeliverEnv)
    (device_name root dst_fullpath relpath : String)
    (overlays_res_lookup : Bool) :
    List String →
    Except PyExc (List (String × String) × List (String × String))
  | [] => Except.ok ([], [])
  | f :: fs =>
    if strEndsWith f ".link" then
      if overlays_res_lookup then
        match _resolve_overlay_res_from_link env device_name f root
            dst_fullpath relpath with
        | Except.error e => Except.error e
        | Except.ok (copyAdds, moveAdds) =>
          match process_files env device_name root dst_fullpath relpath
              overlays_res_lookup fs with
          | Except.error e => Except.error e
          | Except.ok (copyRest, moveRest) =>
            Except.ok (copyAdds ++ copyRest, moveAdds ++ moveRest)
      else process_files env device_name root dst_fullpath relpath
        overlays_res_lookup fs
    else
      match process_files env device_name root dst_fullpath relpath
          overlays_res_lookup fs with
      | Except.error e => Except.error e
      | Except.ok (copyRest, moveRest) =>
        Except.ok ((ospJoin root f, ospJoin (ospJoin dst_fullpath relpath) f)
          :: copyRest, moveRest)

/-- Lines 89–135 of `deliver_notebooks`: process one folder (already
known to contain a notebook) and either contribute its
`files_to_copy_tmp`/`files_to_move_tmp` entries, or — when an
`OverlayNotFoundError` was raised — contribute nothing, so that the
folder's notebooks are excluded from delivery.  Other exceptions
propagate out of `deliver_notebooks`. -/
def deliver_folder (env : DeliverEnv)
    (device_name root dst_fullpath relpath : String)
    (overlays_res_lookup : Bool) (dirs files : List String) :
    Except PyExc (List (String × String) × List (String × String)) :=
  let attempt : Except PyExc
      (List (String × String) × List (String × String)) :=
    match process_dirs env device_name root dst_fullpath relpath
        overlays_res_lookup dirs with
    | Except.error e => Except.error e
    | Except.ok dirAdds =>
      match process_files env device_name root dst_fullpath relpath
          overlays_res_lookup files with
      | Except.error e => Except.error e
      | Except.ok (copyAdds, moveAdds) =>
        Except.ok (dirAdds ++ copyAdds, moveAdds)
  match attempt with
  | Except.error (PyExc.overlayNotFound _) => Except.ok ([], [])
  | Except.error e => Except.error e
  | Except.ok r => Except.ok r

/-! ### The copy/move phase and its roll-back

For `_copy_and_move_files` / `_roll_back_copy` the parent-directory
pruning loop walks `os.path.dirname` chains, so here paths are embedded
as component lists (`a/b/c` is `["a", "b", "c"]`) and the filesystem as
the lists of file paths and directory paths that exist. -/

/-- A filesystem snapshot: the paths that exist as files and as
directories. -/
structure FS where
  files : List (List String)
  dirs : List (List String)
  deriving DecidableEq

/-- `os.path.isfile`. -/
def FS.isFile (fs : FS) (p : List String) : Bool := fs.files.contains p

/-- `os.path.isdir`. -/
def FS.isDir (fs : FS) (p : List String) : Bool := fs.dirs.contains p

/-- `os.remove`. -/
def FS.removeFile (fs : FS) (p : List String) : FS :=
  { fs with files := fs.files.filter (fun q => q ≠ p) }

/-- `os.rmdir`. -/
def FS.rmdir (fs : FS) (d : List String) : FS :=
  { fs with dirs := fs.dirs.filter (fun q => q ≠ d) }

/-- `distutils.dir_util.remove_tree`: the directory and everything under
it disappears. -/
def FS.removeTree (fs : FS) (p : List String) : FS :=
  { files := fs.files.filter (fun q => ¬ p.isPrefixOf q),
    dirs := fs.dirs.filter (fun q => ¬ p.isPrefixOf q) }

/-- `len(os.listdir(d))`: number of immediate children of `d` that
exist (as files or directories). -/
def FS.listdirCount (fs : FS) (d : List String) : Nat :=
  (fs.files ++ fs.dirs).countP (fun q => q ≠ [] ∧ q.dropLast = d)

/-- `distutils.dir_util.mkpath(d)`: create `d` and its ancestors. -/
def FS.mkpath (fs : FS) (d : List String) : FS :=
  let ancestors := (List.range d.length).map (fun k => d.take (k + 1))
  { fs with dirs := fs.dirs ++ ancestors.filter (fun q => ¬ fs.dirs.contains q) }

/-- `distutils.file_util.copy_file src dst` after `mkpath(dirname dst)`:
the destination file now exists. -/
def FS.copyFileTo (fs : FS) (dst : List String) : FS :=
  let fs1 := fs.mkpath dst.dropLast
  { fs1 with files := dst :: fs1.files }

/-- `distutils.dir_util.copy_tree src dst`: `dst` exists as a directory
and the subtree under `src` is mirrored under `dst`. -/
def FS.copyTree (fs : FS) (src dst : List String) : FS :=
  let retarget : List String → Option (List String) := fun q =>
    if src.isPrefixOf q ∧ q ≠ src then some (dst ++ q.drop src.length)
    else none
  { files := fs.files ++ fs.files.filterMap retarget,
    dirs := fs.dirs ++ [dst] ++ fs.dirs.filterMap retarget }

/-- `shutil.move src dst` for a downloaded temporary file. -/
def FS.moveFile (fs : FS) (src dst : List String) : FS :=
  let fs1 := fs.removeFile src
  { fs1 with files := dst :: fs1.files }

/-- One iteration of `_copy_and_move_files`: a copy step branches on
`os.path.isfile(src)` into `copy_file` (with `mkpath`) or `copy_tree`,
a move step is `shutil.move`. -/
def copyMoveStep (fs : FS) (op : Bool × List String × List String) : FS :=
  match op with
  | (false, src, dst) =>
    if fs.isFile src then fs.copyFileTo dst else fs.copyTree src dst
  | (true, src, dst) => fs.moveFile src dst

/-- `_copy_and_move_files`, with an injected failure point: the first
`failAt` operations complete, and if any operation remains the next one
raises (any `Exception` or `KeyboardInterrupt`).  Returns the
(possibly partial) filesystem and whether an exception was raised.
`files_to_copy` entries run first, `files_to_move` entries second, in
dict order. -/
def _copy_and_move_files (fs : FS)
    (files_to_copy files_to_move : List (List String × List String))
    (failAt : Nat) : FS × Bool :=
  let ops := files_to_copy.map (fun sd => (false, sd)) ++
    files_to_move.map (fun sd => (true, sd))
  ((ops.take failAt).foldl copyMoveStep fs, decide (failAt < ops.length))

/-- The `while len(os.listdir(os.path.dirname(dst))) == 0` pruning loop
of `_roll_back_copy`: climb the parent chain of `dst`, removing each
directory that became empty. -/
def pruneEmptyDirs (fs : FS) (p : List String) : FS :=
  match p with
  | [] => fs
  | x :: rest =>
    if fs.listdirCount ((x :: rest).dropLast) = 0 then
      pruneEmptyDirs (fs.rmdir ((x :: rest).dropLast)) ((x :: rest).dropLast)
    else fs
  termination_by p.length
  decreasing_by
    simp only [List.length_dropLast, List.length_cons]
    omega

/-- One destination entry of `_roll_back_copy`: a file destination is
removed and its emptied parents pruned, a directory destination is
removed with `remove_tree`, anything else is left alone. -/
def roll_back_one (fs : FS) (dst : List String) : FS :=
  if fs.isFile dst then pruneEmptyDirs (fs.removeFile dst) dst
  else if fs.isDir dst then fs.removeTree dst
  else fs

/-- `_roll_back_copy`: every destination recorded in `files_to_copy`,
then every destination recorded in `files_to_move`, is rolled back. -/
def _roll_back_copy (fs : FS)
    (files_to_copy files_to_move : List (List String × List String)) : FS :=
  (files_to_move.map Prod.snd).foldl roll_back_one
    ((files_to_copy.map Prod.snd).foldl roll_back_one fs)

/-- Lines 136–157 of `deliver_notebooks`: run `_copy_and_move_files`;
if it raises (any `Exception` or `KeyboardInterrupt`), run
`_roll_back_copy` on the partial state and re-raise — the `error`
result carries the filesystem in which the exception escapes. -/
def deliver_copy_phase (fs : FS)
    (files_to_copy files_to_move : List (List String × List String))
    (failAt : Nat) : Except FS FS :=
  let r := _copy_and_move_files fs files_to_copy files_to_move failAt
  if r.2 then Except.error (_roll_back_copy r.1 files_to_copy files_to_move)
  else Except.ok r.1

/-- No path exists both as a file and as a directory (true of every real
filesystem; the roll-back branches on `isfile` before `isdir`). -/
def FS.disjoint (fs : FS) : Bool :=
  fs.files.all (fun p => ¬ fs.dirs.contains p)

/-! ### `_download_file`

The downloader's externals — `urllib.request.urlopen`, `hashlib.md5`,
`magic.from_file` — are abstracted to the digest of the fetched bytes
and whether the fetched file's mime type matches a supported unpack
format; everything after the fetch is the function's own sequential
control flow and is embedded step by step. -/

/-- The observable steps of one `_download_file` run, in order. -/
inductive DlEvent where
  | fetchWrite
  | verifyDigest
  | deleteTmp
  | unpackToDst
  | copyToDst
  deriving DecidableEq

/-- What one `_download_file` run did: its step sequence, whether it
raised `DownloadedFileChecksumError`, whether the temporary file still
exists afterwards, and whether the destination path was written. -/
structure DlRun where
  events : List DlEvent
  raisedChecksumError : Bool
  tmpExists : Bool
  dstWritten : Bool
  deriving DecidableEq

/-- Python truthiness of the `md5sum` argument (`if md5sum:`): `None`
and the empty string are falsy. -/
def md5sumTruthy : Option String → Bool
  | none => false
  | some s => ¬ s.isEmpty

/-- The tail of `_download_file` after a passed (or skipped)
verification: unpack when requested and the mime type is a supported
archive format, otherwise `copy_file` to the destination. -/
def downloadFinish (evs : List DlEvent) (unpack mimeSupported : Bool) : DlRun :=
  if unpack ∧ mimeSupported then
    { events := evs ++ [DlEvent.unpackToDst], raisedChecksumError := false,
      tmpExists := true, dstWritten := true }
  else
    { events := evs ++ [DlEvent.copyToDst], raisedChecksumError := false,
      tmpExists := true, dstWritten := true }

/-- `_download_file(download_link, path, md5sum, unpack)`:
fetch the bytes into a fresh temporary file; if `md5sum` is truthy,
hash the temporary file and on a digest mismatch delete it and raise
`DownloadedFileChecksumError`; otherwise unpack or copy the file to
`path`.  `digest` is the hex digest of the fetched bytes. -/
def _download_file (digest : String) (md5sum : Option String)
    (unpack mimeSupported : Bool) : DlRun :=
  let fetched := [DlEvent.fetchWrite]
  if md5sumTruthy md5sum then
    if md5sum.getD "" ≠ digest then
      { events := fetched ++ [DlEvent.verifyDigest, DlEvent.deleteTmp],
        raisedChecksumError := true, tmpExists := false, dstWritten := false }
    else downloadFinish (fetched ++ [DlEvent.verifyDigest]) unpack mimeSupported
  else downloadFinish fetched unpack mimeSupported

end DeliverNotebooks

namespace DownloadOverlays

open DeliverNotebooks

/-! ## `download_overlays.py`

`_resolve_devices_overlay_res` and the `.link`-file step of
`download_overlays`.  The I/O helper
`_resolve_devices_overlay_res_helper` performs lookups and downloads
for one device; for the properties below only the `(device, target
path)` job it would be invoked on matters, so the embedding returns the
job list. -/

/-- `_resolve_devices_overlay_res`: when no device was detected and the
CPU architecture is not x86, the code evaluates `devices[0]` (embedded
as `devices.head?`, whose `none` case is Python's `IndexError`) intending
to resolve directly to `src_path/overlay_res.ext`; otherwise each
detected device gets a job targeting
`src_path/overlay_res.ext.d/overlay_res.device.ext`. -/
def _resolve_devices_overlay_res (cpu_arch_is_x86 : Bool)
    (overlay_res_link src_path : String) (devices : List String) :
    Except PyExc (List (String × String)) :=
  let overlay_res_filename := (splitext overlay_res_link).1
  if devices.length = 0 ∧ ¬ cpu_arch_is_x86 then
    match devices.head? with
    | none => Except.error PyExc.indexError
    | some d =>
      Except.ok [(d, ospJoin src_path overlay_res_filename)]
  else
    Except.ok (devices.map (fun device =>
      let overlay_res_download_path :=
        ospJoin src_path (overlay_res_filename ++ ".d")
      let sp := splitext overlay_res_filename
      let overlay_res_filename_ext := sp.1 ++ "." ++ device ++ sp.2
      (device, ospJoin overlay_res_download_path overlay_res_filename_ext)))

/-- The `not download_all` branch of the `.link` loop in
`download_overlays` (lines 72–76): `_resolve_global_overlay_res` runs
first (its outcome — it downloads and returns `True` only when the
manifest has top-level `url`/`md5sum` entries and the download left the
file in place — is the oracle `globalResolved`), and only if it returned
`False` is `_resolve_devices_overlay_res` called. -/
def process_link_no_download_all (globalResolved cpu_arch_is_x86 : Bool)
    (overlay_res_link src_path : String) (devices : List String) :
    Except PyExc (List (String × String)) :=
  if globalResolved then Except.ok []
  else _resolve_devices_overlay_res cpu_arch_is_x86 overlay_res_link src_path
    devices

end DownloadOverlays

namespace XsaParser

/-! ## `xsa_parser.py` — the lazy zip-member extractor `Xsa.__path` -/

/-- The mutable state of an `Xsa` reader: the archive's member-name set
(`self.__members`, fixed at construction), the temporary extraction
directory name (`self.__extracted`), and the member names whose
extracted copies currently exist in that directory. -/
structure XsaState where
  members : List String
  extractedDir : String
  extracted : List String
  deriving DecidableEq

/-- One loop iteration of `Xsa.__path`: extract `m` (recording it in
the extraction log) only if `os.path.exists` is false for its path in
the extraction directory. -/
def extractStep (acc : XsaState × List String) (m : String) :
    XsaState × List String :=
  if acc.1.extracted.contains m then acc
  else ({ acc.1 with extracted := acc.1.extracted ++ [m] }, acc.2 ++ [m])

/-- `Xsa.__path(members)` (list form; the string form wraps a singleton
list).  Requested names outside the archive's member set raise
`RuntimeError` naming the missing members (the `error` value carries
them); otherwise each member is extracted unless its extracted copy
already exists, and the OS paths inside the extraction directory are
returned together with the log of member names this call extracted. -/
def xsa_path (st : XsaState) (membersReq : List String) :
    Except (List String) (XsaState × List String × List String) :=
  let missing := membersReq.filter (fun m => ¬ st.members.contains m)
  if missing.isEmpty then
    let r := membersReq.foldl extractStep (st, [])
    Except.ok (r.1, membersReq.map (fun m => ospJoin st.extractedDir m), r.2)
  else Except.error missing

end XsaParser

namespace DetectDevices

/-! ## `detect_devices.py`

`detect_devices` shells out to `xbutil examine` and scans the output
with the regular expression
`\[[0-9]+:[0-9]+:[0-9]+\.[0-9]+]\s*:\s+([A-Za-z0-9_-]+)\s+`.
Every character class in the pattern is disjoint from the literal (or
class) that follows it, so Python's leftmost/greedy matching never
backtracks and a maximal-munch scanner is an exact embedding. -/

/-- `[0-9]`. -/
def isDigitC (c : Char) : Bool := '0' ≤ c ∧ c ≤ '9'

/-- `\s` over the `str` result of `subprocess.check_output`. -/
def isSpaceC (c : Char) : Bool :=
  c = ' ' ∨ c = '\t' ∨ c = '\n' ∨ c = '\r' ∨ c = '\x0b' ∨ c = '\x0c'

/-- The capture class `[A-Za-z0-9_-]`. -/
def isWordC (c : Char) : Bool :=
  ('A' ≤ c ∧ c ≤ 'Z') ∨ ('a' ≤ c ∧ c ≤ 'z') ∨ ('0' ≤ c ∧ c ≤ '9') ∨
    c = '_' ∨ c = '-'

/-- Consume one expected literal character. -/
def expectChar (c : Char) : List Char → Option (List Char)
  | [] => none
  | x :: rest => if x = c then some rest else none

/-- Consume a nonempty maximal run of characters satisfying `p`
(a greedy `+` quantifier). -/
def takeClass1 (p : Char → Bool) (l : List Char) :
    Option (List Char × List Char) :=
  match l.takeWhile p with
  | [] => none
  | pre => some (pre, l.dropWhile p)

/-- Match `\[[0-9]+:[0-9]+:[0-9]+\.[0-9]+]\s*:\s+` at the head of the
input, returning the remaining input. -/
def matchHeader (l : List Char) : Option (List Char) := do
  let r ← expectChar '[' l
  let (_, r) ← takeClass1 isDigitC r
  let r ← expectChar ':' r
  let (_, r) ← takeClass1 isDigitC r
  let r ← expectChar ':' r
  let (_, r) ← takeClass1 isDigitC r
  let r ← expectChar '.' r
  let (_, r) ← takeClass1 isDigitC r
  let r ← expectChar ']' r
  let r := r.dropWhile isSpaceC
  let r ← expectChar ':' r
  let (_, r) ← takeClass1 isSpaceC r
  pure r

/-- Match the whole pattern at the head of the input, returning the
captured device name and the input after the match. -/
def matchAt (l : List Char) : Option (List Char × List Char) :=
  match matchHeader l with
  | none => none
  | some r =>
    match takeClass1 isWordC r with
    | none => none
    | some (name, r1) =>
      match takeClass1 isSpaceC r1 with
      | none => none
      | some (_, r2) => some (name, r2)

/-- `re.finditer`: scan left to right, taking the leftmost
non-overlapping matches and collecting the captured group of each.
`fuel` bounds the recursion; `detect_devices` passes the input length,
which suffices because each match consumes at least one character. -/
def findIterAux : Nat → List Char → List (List Char)
  | 0, _ => []
  | _ + 1, [] => []
  | fuel + 1, c :: cs =>
    match matchAt (c :: cs) with
    | some (name, rest) => name :: findIterAux fuel rest
    | none => findIterAux fuel cs

/-- `detect_devices`: run `xbutil examine` (its result — output text, or
any exception such as the CLI not being installed — is the parameter) and
collect the captured device names; the bare `except:` turns every
failure into the empty list. -/
def detect_devices (cli : Except String String) : List String :=
  match cli with
  | Except.ok out => (findIterAux out.data.length out.data).map List.asString
  | Except.error _ => []

/-- Lines 62–67 of `download_overlays`: `detect_devices()` inside
`try/except RuntimeError`, where the handler re-raises when
`fail_at_device_detection` is set and otherwise substitutes the empty
list.  `detect_devices` is a total function of the CLI outcome, so the
`try` body is simply its value and the handler is the `error` branch of
an `Except` that is always `ok`. -/
def download_overlays_detect (cli : Except String String)
    (fail_at_device_detection : Bool) : Except String (List String) :=
  match (Except.ok (detect_devices cli) : Except String (List String)) with
  | Except.ok devices => Except.ok devices
  | Except.error e =>
    if fail_at_device_detection then Except.error e else Except.ok []

end DetectDevices

namespace Logging

/-! ## `logging.py` — `_PynqLoggingFormatter` and `get_logger` -/

/-- The fields of a `logging.LogRecord` that the formats mention. -/
structure LogRecord where
  levelno : Nat
  msg : String
  module : String
  lineno : Nat

/-- `_PynqLoggingFormatter.FORMATS`: `logging.ERROR = 40`,
`logging.WARNING = 30`, `logging.DEBUG = 10`. -/
def FORMATS : List (Nat × String) :=
  [(40, "ERROR: %(msg)s"),
   (30, "WARNING: %(msg)s"),
   (10, "DEBUG: %(module)s: %(lineno)d: %(msg)s")]

/-- `FORMATS["DEFAULT"]`. -/
def DEFAULT_FORMAT : String := "%(msg)s"

/-- Read a `name)c` tail of a `%(name)c` directive: the key up to the
closing parenthesis, the conversion character, and the rest. -/
def readKey : List Char → Option (List Char × Char × List Char)
  | [] => none
  | ')' :: rest =>
    match rest with
    | conv :: rest' => some ([], conv, rest')
    | [] => none
  | c :: rest =>
    match readKey rest with
    | some (k, conv, r) => some (c :: k, conv, r)
    | none => none

/-- `%`-substitution of one record field.  `%s` of a `str` is the
string itself and `%d` of an `int` is its decimal representation, so the
conversion character adds nothing for these fields. -/
def substField (r : LogRecord) (key : List Char) : List Char :=
  if key = "msg".data then r.msg.data
  else if key = "module".data then r.module.data
  else if key = "lineno".data then (toString r.lineno).data
  else []

/-- `log_fmt % record.__dict__`, the `%`-interpolation
`logging.Formatter.format` performs on the chosen format string.  The
fuel argument (instantiated with the format string's length, an upper
bound on the recursion depth) keeps the recursion structural. -/
def interpAux (r : LogRecord) : Nat → List Char → List Char
  | 0, l => l
  | _ + 1, [] => []
  | fuel + 1, '%' :: '(' :: rest =>
    match readKey rest with
    | some (k, _, rest') => substField r k ++ interpAux r fuel rest'
    | none => '%' :: '(' :: rest
  | fuel + 1, c :: rest => c :: interpAux r fuel rest

/-- `_PynqLoggingFormatter.format`: pick the format for the record's
`levelno` (defaulting to the bare-message format) and interpolate the
record into it. -/
def format (r : LogRecord) : String :=
  let log_fmt := (FORMATS.lookup r.levelno).getD DEFAULT_FORMAT
  ⟨interpAux r log_fmt.data.length log_fmt.data⟩

/-- A `logging.Logger`: its handler list (each handler is named by its
formatter; `get_logger` installs a `StreamHandler` carrying a
`_PynqLoggingFormatter`) and its configured level (0 = `NOTSET`). -/
structure Logger where
  handlers : List String
  level : Nat
  deriving DecidableEq

/-- The handler `get_logger` installs. -/
def pynqHandler : String := "StreamHandler(_PynqLoggingFormatter)"

/-- The module's `__name__`, the key under which the process-wide
`logging` registry stores this logger. -/
def LOGGER_NAME : String := "pynqutils.runtime.logging"

/-- The process-wide `logging` manager: its registry of named loggers. -/
structure LoggingState where
  loggers : List (String × Logger)

/-- `logging.getLogger(name)`: return the registered logger, creating
and registering a fresh one (no handlers, level `NOTSET`) on first
use — this is what makes the logger a process-wide singleton. -/
def getLogger (st : LoggingState) (name : String) : LoggingState × Logger :=
  match st.loggers.lookup name with
  | some l => (st, l)
  | none =>
    let l : Logger := { handlers := [], level := 0 }
    ({ loggers := st.loggers ++ [(name, l)] }, l)

/-- Store back the (mutated) logger under its name. -/
def setLogger (st : LoggingState) (name : String) (l : Logger) :
    LoggingState :=
  { loggers := st.loggers.map (fun kv => if kv.1 = name then (kv.1, l) else kv) }

/-- `Logger.getEffectiveLevel`: the logger's own level if set, else the
root logger's default `WARNING = 30` (no intermediate logger of the
hierarchy is configured by this package). -/
def getEffectiveLevel (l : Logger) : Nat :=
  if l.level ≠ 0 then l.level else 30

/-- The `levels` name table of `get_logger`. -/
def levels : List (String × Nat) :=
  [("critical", 50), ("error", 40), ("warning", 30), ("info", 20),
   ("debug", 10)]

/-- `get_logger(level, force_lvl)`: fetch the singleton logger, install
the formatting handler only when the logger has none, then raise the
level to `level` when it exceeds the effective level or `force_lvl` is
set.  `level` is the numeric level (a string argument goes through the
`levels` table first).  Returns the updated registry and the logger the
caller receives. -/
def get_logger (level : Nat) (force_lvl : Bool) (st : LoggingState) :
    LoggingState × Logger :=
  let r := getLogger st LOGGER_NAME
  let logger := r.2
  let logger1 :=
    if logger.handlers.isEmpty then
      { logger with handlers := logger.handlers ++ [pynqHandler] }
    else logger
  let logger_lvl := getEffectiveLevel logger1
  let logger2 :=
    if logger_lvl < level ∨ force_lvl then { logger1 with level := level }
    else logger1
  (setLogger r.1 LOGGER_NAME logger2, logger2)

end Logging

namespace BoardStore

/-! ## `boardstore.py` — board.xml parsing

Python's `list.sort()` on strings orders them lexicographically by code
point; `strLeb` is that order on `String.data`, and `pySort` an
insertion sort for it (on the distinct version-directory names being
sorted, every correct sort of the same order agrees). -/

/-- Code-point lexicographic `<=` on character lists — the order Python
string comparison uses. -/
def strLeb : List Char → List Char → Bool
  | [], _ => true
  | _ :: _, [] => false
  | x :: xs, y :: ys =>
    if x.toNat < y.toNat then true
    else if y.toNat < x.toNat then false
    else strLeb xs ys

/-- Insert into a `strLeb`-sorted list. -/
def insertStr (x : String) : List String → List String
  | [] => [x]
  | y :: ys => if strLeb x.data y.data then x :: y :: ys else y :: insertStr x ys

/-- `versions.sort()`. -/
def pySort (l : List String) : List String := l.foldr insertStr []

/-- An XML element: tag, attributes, text, children
(`xml.etree.ElementTree`). -/
inductive XmlElem where
  | mk (tag : String) (attrs : List (String × String)) (text : Option String)
      (children : List XmlElem)

def XmlElem.tag : XmlElem → String
  | XmlElem.mk t _ _ _ => t

def XmlElem.attrs : XmlElem → List (String × String)
  | XmlElem.mk _ a _ _ => a

def XmlElem.text : XmlElem → Option String
  | XmlElem.mk _ _ t _ => t

def XmlElem.children : XmlElem → List XmlElem
  | XmlElem.mk _ _ _ c => c

/-- Attribute lookup (`elem.attrib[key]`; a missing key is `none`). -/
def attrLookup (k : String) : List (String × String) → Option String
  | [] => none
  | (k', v) :: rest => if k' = k then some v else attrLookup k rest

/-- `ElementTree.find(tag)`: the first direct child with that tag. -/
def XmlElem.find (e : XmlElem) (tag : String) : Option XmlElem :=
  e.children.find? (fun c => c.tag = tag)

/-- `find_part`: iterate the children of the `components` element and
return the `part_name` attribute of the first one whose `name`
attribute is `part0`.  (In `board.xml` every component carries a `name`
attribute, so skipping attribute-less children is faithful; with no
match Python falls off the function and returns `None`.) -/
def find_part (xml_tree : XmlElem) : Option String :=
  match xml_tree.find "components" with
  | none => none
  | some comps =>
    match comps.children.find?
        (fun child => attrLookup "name" child.attrs = some "part0") with
    | some child => attrLookup "part_name" child.attrs
    | none => none

/-- `file_version`: the text of the `file_version` element. -/
def file_version (xml_tree : XmlElem) : Option String :=
  (xml_tree.find "file_version").bind XmlElem.text

/-- Python dict assignment `d[k] = v`: replace in place or append. -/
def dictInsert {α : Type} (k : String) (v : α) :
    List (String × α) → List (String × α)
  | [] => [(k, v)]
  | (k', v') :: rest =>
    if k' = k then (k', v) :: rest else (k', v') :: dictInsert k v rest

/-- Dict lookup `d[k]` (first — and only — binding of `k`). -/
def dictLookup {α : Type} (k : String) : List (String × α) → Option α
  | [] => none
  | (k', v) :: rest => if k' = k then some v else dictLookup k rest

/-- `os.path.normpath(xml).split(os.path.sep)[-2]`: the directory
component just above `board.xml`, i.e. the version-directory name.
Paths coming from `os.walk` always have at least two components. -/
def secondToLast (p : List String) : Option String :=
  (p.reverse.drop 1).head?

/-- `resolve_paths`: index the `board.xml` paths found by the walk by
the name of the directory that contains each (a later path with the
same version directory name overwrites an earlier one, as Python dict
assignment does). -/
def resolve_paths (boardXmls : List (List String)) :
    List (String × List String) :=
  boardXmls.foldl
    (fun version_dict xmlPath =>
      match secondToLast xmlPath with
      | some ver => dictInsert ver xmlPath version_dict
      | none => version_dict)
    []

/-- `resolve_version`: sort the version names and return the last one
together with the sorted list; `versions[-1]` on an empty dict is an
`IndexError` (`none`). -/
def resolve_version (version_dict : List (String × List String)) :
    Option (String × List String) :=
  match (pySort (version_dict.map Prod.fst)).getLast? with
  | some latest => some (latest, pySort (version_dict.map Prod.fst))
  | none => none

/-- The `Board` fields that `Board.__init__` computes from the
version-indexed `board.xml` paths. -/
structure Board where
  current_version : String
  available_versions : List String
  board_xml_path : List String
  part_name : Option String
  fileVersion : Option String

/-- `Board.__init__` on a board folder: `boardXmls` are the `board.xml`
paths `find_xml` found under the folder (in walk order) and `parse` is
`ElementTree.parse(...).getroot()` on a path.  `none` embeds the
`IndexError` that a folder without any `board.xml` raises. -/
def boardInit (boardXmls : List (List String))
    (parse : List String → XmlElem) : Option Board :=
  match resolve_version (resolve_paths boardXmls) with
  | none => none
  | some (current_version, available_versions) =>
    match dictLookup current_version (resolve_paths boardXmls) with
    | none => none
    | some board_xml_path =>
      some { current_version := current_version,
             available_versions := available_versions,
             board_xml_path := board_xml_path,
             part_name := find_part (parse board_xml_path),
             fileVersion := file_version (parse board_xml_path) }

end BoardStore

/-! ## Verified properties -/

namespace DeliverNotebooks

/-- C5: `_find_remote_overlay_res` reads the `.link` manifest as a map
from device names to `url`/`md5sum` records and returns, for a given
`device_name`, the `{url, md5sum}` record: when the manifest has both
`url` and `md5sum` keys at top level those are returned with no
device-based resolution (the result is the same for every device
argument); otherwise the entry for `device_name` is returned when
present, and the result is `None` (`none`) when it is absent. -/
theorem find_remote_res_priority (device_name : String)
    (links : List (String × Json)) :
    (∀ u m, jLookup "url" links = some u → jLookup "md5sum" links = some m →
      ∀ dev : Option String, _find_remote_overlay_res dev links =
        some (Json.obj [("url", u), ("md5sum", m)])) ∧
    ((jLookup "url" links = none ∨ jLookup "md5sum" links = none) →
      _find_remote_overlay_res (some device_name) links =
        jLookup device_name links) := by
  constructor
  · intro u m hu hm dev
    simp [_find_remote_overlay_res, hu, hm]
  · intro h
    unfold _find_remote_overlay_res
    rcases h with h | h
    · rw [h]
    · rw [h]
      cases jLookup "url" links <;> rfl

/-- Witness for C5 on a concrete two-device manifest and a concrete
global manifest. -/
theorem find_remote_res_priority_witness :
    _find_remote_overlay_res (some "pynq-z1")
        [("url", Json.str "https://x/a.bit"), ("md5sum", Json.str "abc")] =
      some (Json.obj [("url", Json.str "https://x/a.bit"),
        ("md5sum", Json.str "abc")]) ∧
    _find_remote_overlay_res (some "pynq-z1")
        [("pynq-z1", Json.obj [("url", Json.str "https://x/z1.bit"),
          ("md5sum", Json.str "d1")])] =
      some (Json.obj [("url", Json.str "https://x/z1.bit"),
        ("md5sum", Json.str "d1")]) ∧
    _find_remote_overlay_res (some "pynq-z2")
        [("pynq-z1", Json.obj [("url", Json.str "https://x/z1.bit"),
          ("md5sum", Json.str "d1")])] = none := by
  refine ⟨?_, ?_, ?_⟩
  · exact (find_remote_res_priority "pynq-z1"
      [("url", Json.str "https://x/a.bit"), ("md5sum", Json.str "abc")]).1
      (Json.str "https://x/a.bit") (Json.str "abc") (by rfl) (by rfl)
      (some "pynq-z1")
  · exact ((find_remote_res_priority "pynq-z1"
      [("pynq-z1", Json.obj [("url", Json.str "https://x/z1.bit"),
        ("md5sum", Json.str "d1")])]).2 (Or.inl (by rfl))).trans (by rfl)
  · exact ((find_remote_res_priority "pynq-z2"
      [("pynq-z1", Json.obj [("url", Json.str "https://x/z1.bit"),
        ("md5sum", Json.str "d1")])]).2 (Or.inl (by rfl))).trans (by rfl)

/-- C3, counterexample: the guard in `_download_file` is `if md5sum:`
— Python truthiness — so the non-`None` checksum `""` is *not*
verified: with an empty `md5sum` string and a real digest (necessarily
a mismatch), no verification step runs, no
`DownloadedFileChecksumError` is raised, and the file is still copied
to the destination. -/
theorem download_file_empty_md5sum_skips_verify :
    (_download_file "d41d8cd98f00b204e9800998ecf8427e" (some "") false
      false).raisedChecksumError = false ∧
    (_download_file "d41d8cd98f00b204e9800998ecf8427e" (some "") false
      false).dstWritten = true ∧
    (_download_file "d41d8cd98f00b204e9800998ecf8427e" (some "") false
      false).events = [DlEvent.fetchWrite, DlEvent.copyToDst] := by
  refine ⟨rfl, rfl, rfl⟩

/-- C3, as amended: `_download_file`, when given a truthy (non-`None`,
non-empty) `md5sum`, verifies the digest of the downloaded bytes after
the fetch; on a mismatch it deletes the temporary file, raises
`DownloadedFileChecksumError` and writes nothing to the destination,
and only on a match — or when no checksum is given — is the file
written to the destination path, as the sequential step list
fetch → verify → copy (or unpack) shows. -/
theorem download_file_fetch_verify_copy (digest m : String)
    (unpack mimeSupported : Bool) (hm : m.isEmpty = false) :
    (m ≠ digest →
      _download_file digest (some m) unpack mimeSupported =
        { events := [DlEvent.fetchWrite, DlEvent.verifyDigest,
            DlEvent.deleteTmp],
          raisedChecksumError := true, tmpExists := false,
          dstWritten := false }) ∧
    (m = digest →
      (_download_file digest (some m) unpack mimeSupported).raisedChecksumError
          = false ∧
      (_download_file digest (some m) unpack mimeSupported).dstWritten
          = true ∧
      (_download_file digest (some m) unpack mimeSupported).events =
        [DlEvent.fetchWrite, DlEvent.verifyDigest,
          if unpack ∧ mimeSupported then DlEvent.unpackToDst
          else DlEvent.copyToDst]) ∧
    ((_download_file digest none unpack mimeSupported).raisedChecksumError
        = false ∧
      (_download_file digest none unpack mimeSupported).dstWritten = true ∧
      (_download_file digest none unpack mimeSupported).events =
        [DlEvent.fetchWrite,
          if unpack ∧ mimeSupported then DlEvent.unpackToDst
          else DlEvent.copyToDst]) := by
  refine ⟨?_, ?_, ?_⟩
  · intro hne
    simp [_download_file, md5sumTruthy, hm, hne]
  · intro heq
    subst heq
    by_cases hu : unpack ∧ mimeSupported <;>
      simp [_download_file, md5sumTruthy, hm, downloadFinish, hu]
  · by_cases hu : unpack ∧ mimeSupported <;>
      simp [_download_file, md5sumTruthy, downloadFinish, hu]

/-- Witness for the amended C3: a mismatching real checksum raises and
cleans up; a matching one copies. -/
theorem download_file_fetch_verify_copy_witness :
    ("1d0eb1a7b3cedf2c6128f7e2d9b1f225" : String).isEmpty = false ∧
    _download_file "aaaabbbbccccdddd0000111122223333"
        (some "1d0eb1a7b3cedf2c6128f7e2d9b1f225") false false =
      { events := [DlEvent.fetchWrite, DlEvent.verifyDigest,
          DlEvent.deleteTmp],
        raisedChecksumError := true, tmpExists := false,
        dstWritten := false } ∧
    (_download_file "1d0eb1a7b3cedf2c6128f7e2d9b1f225"
        (some "1d0eb1a7b3cedf2c6128f7e2d9b1f225") false false).dstWritten
      = true := by
  refine ⟨rfl, ?_, ?_⟩
  · exact (download_file_fetch_verify_copy "aaaabbbbccccdddd0000111122223333"
      "1d0eb1a7b3cedf2c6128f7e2d9b1f225" false false rfl).1 (by decide)
  · exact ((download_file_fetch_verify_copy
      "1d0eb1a7b3cedf2c6128f7e2d9b1f225"
      "1d0eb1a7b3cedf2c6128f7e2d9b1f225" false false rfl).2.1 rfl).2.1

end DeliverNotebooks

namespace DownloadOverlays

open DeliverNotebooks

/-- C4: with `download_all=False`, on a non-x86 machine with an empty
detected-devices list, `_resolve_devices_overlay_res` takes the
`len(devices) == 0 and not CPU_ARCH_IS_x86` branch and evaluates
`devices[0]` on the empty list, raising `IndexError` instead of
resolving the resource directly to `overlay_res.ext`; consequently the
`.link`-processing step of `download_overlays` (which calls it whenever
`_resolve_global_overlay_res` returned `False`) raises `IndexError`. -/
theorem resolve_devices_empty_index_error
    (overlay_res_link src_path : String) (globalResolved : Bool) :
    _resolve_devices_overlay_res false overlay_res_link src_path [] =
      Except.error PyExc.indexError ∧
    (globalResolved = false →
      process_link_no_download_all globalResolved false overlay_res_link
        src_path [] = Except.error PyExc.indexError) := by
  constructor
  · simp [_resolve_devices_overlay_res]
  · intro h
    subst h
    simp [process_link_no_download_all, _resolve_devices_overlay_res]

/-- Witness for C4 on a concrete `.link` name whose global resolution
failed. -/
theorem resolve_devices_empty_index_error_witness :
    process_link_no_download_all false false "base.bit.link" "notebooks/src"
      [] = Except.error PyExc.indexError :=
  (resolve_devices_empty_index_error "base.bit.link" "notebooks/src"
    false).2 rfl

end DownloadOverlays

namespace DetectDevices

/-- C8: `detect_devices` is total — it is a plain function of the CLI
outcome, and the bare `except:` maps every CLI failure to the empty
list — so the `except RuntimeError` handler around it in
`download_overlays` is unreachable and the device-detection step
returns `ok` (never raises) even when `fail_at_device_detection` is
set. -/
theorem detect_devices_never_raises :
    (∀ e : String, detect_devices (Except.error e) = []) ∧
    (∀ (cli : Except String String) (fail_at_device_detection : Bool),
      download_overlays_detect cli fail_at_device_detection =
        Except.ok (detect_devices cli)) :=
  ⟨fun _ => rfl, fun _ _ => rfl⟩

/-- A successful `+`-quantifier match captures a nonempty run of
characters of its class. -/
theorem takeClass1_wf {p : Char → Bool} {l pre rest : List Char}
    (h : takeClass1 p l = some (pre, rest)) :
    pre ≠ [] ∧ pre.all p := by
  unfold takeClass1 at h
  cases htw : l.takeWhile p with
  | nil => rw [htw] at h; exact absurd h (by simp)
  | cons a as =>
    rw [htw] at h
    obtain ⟨rfl, -⟩ := Prod.mk.injEq .. ▸ Option.some.injEq .. ▸ h
    refine ⟨by simp, ?_⟩
    rw [List.all_eq_true]
    intro x hx
    exact List.mem_takeWhile_imp (htw ▸ hx)

/-- The device name captured by a successful pattern match is a
nonempty `[A-Za-z0-9_-]` token. -/
theorem matchAt_name_wf {l name rest : List Char}
    (h : matchAt l = some (name, rest)) :
    name ≠ [] ∧ name.all isWordC := by
  unfold matchAt at h
  split at h
  · exact absurd h (by simp)
  split at h
  · exact absurd h (by simp)
  split at h
  · exact absurd h (by simp)
  rename_i hwordrun hscrut sp hword hspace
  cases h
  exact takeClass1_wf hwordrun

/-- Every capture collected by the scanner is a nonempty word token. -/
theorem findIterAux_wf :
    ∀ (fuel : Nat) (l n : List Char), n ∈ findIterAux fuel l →
      n ≠ [] ∧ n.all isWordC := by
  intro fuel
  induction fuel with
  | zero => intro l n h; exact absurd h (by simp [findIterAux])
  | succ fuel ih =>
    intro l n h
    cases l with
    | nil => exact absurd h (by simp [findIterAux])
    | cons c cs =>
      rw [findIterAux] at h
      cases hm : matchAt (c :: cs) with
      | none => rw [hm] at h; exact ih cs n h
      | some pr =>
        obtain ⟨name, rest⟩ := pr
        rw [hm] at h
        rcases List.mem_cons.mp h with rfl | h2
        · exact matchAt_name_wf hm
        · exact ih rest n h2

/-- C7: `detect_devices` obtains the device list by shelling out to the
vendor CLI (`xbutil examine`) and returns the device names parsed from
its output: the captures of the scan, each of which is a nonempty
`[A-Za-z0-9_-]` name occurring in the output text. -/
theorem detect_devices_parses_cli_output (out : String) :
    detect_devices (Except.ok out) =
      (findIterAux out.data.length out.data).map List.asString ∧
    (∀ name ∈ detect_devices (Except.ok out),
      name ≠ "" ∧ name.data.all isWordC) := by
  refine ⟨rfl, ?_⟩
  intro name hname
  have hname2 : name ∈ (findIterAux out.data.length out.data).map
      List.asString := hname
  rw [List.mem_map] at hname2
  obtain ⟨cs, hcs, rfl⟩ := hname2
  obtain ⟨hne, hall⟩ := findIterAux_wf out.data.length out.data cs hcs
  refine ⟨?_, hall⟩
  intro hcontra
  exact hne (congrArg String.data hcontra)

/-- Witness for C7 on a representative `xbutil examine` line. -/
theorem detect_devices_parses_cli_output_witness :
    "xilinx_u250_gen3x16_base_4" ∈
      detect_devices (Except.ok
        "Devices present\n[0000:65:00.1]  :  xilinx_u250_gen3x16_base_4  user\n") ∧
    ("xilinx_u250_gen3x16_base_4" : String) ≠ "" ∧
    ("xilinx_u250_gen3x16_base_4" : String).data.all isWordC := by
  have hmem : "xilinx_u250_gen3x16_base_4" ∈
      detect_devices (Except.ok
        "Devices present\n[0000:65:00.1]  :  xilinx_u250_gen3x16_base_4  user\n") := by
    decide
  exact ⟨hmem, (detect_devices_parses_cli_output
    "Devices present\n[0000:65:00.1]  :  xilinx_u250_gen3x16_base_4  user\n").2
    "xilinx_u250_gen3x16_base_4" hmem⟩

end DetectDevices

namespace XsaParser

/-- C6: the XSA reader extracts zip members lazily and at most once.
A member whose extracted copy already exists is returned again with the
same path, unchanged state, and nothing extracted; a member not yet
extracted is extracted exactly once, after which a second request
returns the same path with no re-extraction; and a request containing
names outside the archive's member set raises `RuntimeError` carrying
exactly the requested-but-missing names. -/
theorem xsa_path_lazy_at_most_once (st : XsaState) (m : String)
    (req : List String) :
    (m ∈ st.members → m ∈ st.extracted →
      xsa_path st [m] =
        Except.ok (st, [ospJoin st.extractedDir m], [])) ∧
    (m ∈ st.members → m ∉ st.extracted →
      xsa_path st [m] =
        Except.ok ({ st with extracted := st.extracted ++ [m] },
          [ospJoin st.extractedDir m], [m]) ∧
      xsa_path { st with extracted := st.extracted ++ [m] } [m] =
        Except.ok ({ st with extracted := st.extracted ++ [m] },
          [ospJoin st.extractedDir m], [])) ∧
    ((∃ x ∈ req, x ∉ st.members) →
      xsa_path st req =
        Except.error (req.filter (fun x => ¬ st.members.contains x)) ∧
      ∀ x ∈ req.filter (fun x => ¬ st.members.contains x),
        x ∈ req ∧ x ∉ st.members) := by
  refine ⟨?_, ?_, ?_⟩
  · intro hmem hext
    simp [xsa_path, extractStep, hmem, hext]
  · intro hmem hext
    constructor
    · simp [xsa_path, extractStep, hmem, hext]
    · simp [xsa_path, extractStep, hmem, hext]
  · intro hmissing
    obtain ⟨x, hxreq, hxmem⟩ := hmissing
    have hne : req.filter (fun y => ¬ st.members.contains y) ≠ [] := by
      intro hempty
      have hmemf : x ∈ req.filter (fun y => ¬ st.members.contains y) :=
        List.mem_filter.mpr ⟨hxreq, by simpa using hxmem⟩
      rw [hempty] at hmemf
      exact absurd hmemf (List.not_mem_nil x)
    constructor
    · unfold xsa_path
      rw [if_neg (by simpa [List.isEmpty_iff] using hne)]
    · intro y hy
      have := List.mem_filter.mp hy
      refine ⟨this.1, ?_⟩
      have h2 := this.2
      simp at h2
      exact h2

/-- Witness for C6: a two-member archive; the first request extracts
`sysdef.xml`, the second returns the same path without extracting. -/
theorem xsa_path_lazy_at_most_once_witness :
    xsa_path ⟨["xsa.json", "sysdef.xml"], "/tmp/x", []⟩ ["sysdef.xml"] =
      Except.ok (⟨["xsa.json", "sysdef.xml"], "/tmp/x", ["sysdef.xml"]⟩,
        ["/tmp/x/sysdef.xml"], ["sysdef.xml"]) ∧
    xsa_path ⟨["xsa.json", "sysdef.xml"], "/tmp/x", ["sysdef.xml"]⟩
        ["sysdef.xml"] =
      Except.ok (⟨["xsa.json", "sysdef.xml"], "/tmp/x", ["sysdef.xml"]⟩,
        ["/tmp/x/sysdef.xml"], []) ∧
    xsa_path ⟨["xsa.json", "sysdef.xml"], "/tmp/x", []⟩ ["pynq.json"] =
      Except.error ["pynq.json"] := by
  have h := (xsa_path_lazy_at_most_once
    ⟨["xsa.json", "sysdef.xml"], "/tmp/x", []⟩ "sysdef.xml" ["pynq.json"]).2
  have h12 := h.1 (by decide) (by decide)
  have h3 := h.2 ⟨"pynq.json", by decide, by decide⟩
  exact ⟨h12.1, h12.2, h3.1⟩

end XsaParser

namespace Logging

/-- Looking up a freshly appended registry entry. -/
theorem lookup_append_single {l : List (String × Logger)} {n : String}
    {x : Logger} (h : l.lookup n = none) :
    (l ++ [(n, x)]).lookup n = some x := by
  induction l with
  | nil => simp [List.lookup_cons]
  | cons kv rest ih =>
    obtain ⟨k, v⟩ := kv
    by_cases hk : n = k
    · subst hk
      simp [List.lookup_cons] at h
    · have hb : (n == k) = false := beq_false_of_ne hk
      simp only [List.lookup_cons, hb, cond_false] at h
      simp only [List.cons_append, List.lookup_cons, hb, cond_false]
      exact ih h

/-- Writing a logger back leaves it stored at its key. -/
theorem lookup_map_set {l : List (String × Logger)} {n : String}
    {x y : Logger} (h : l.lookup n = some y) :
    (l.map (fun kv => if kv.1 = n then (kv.1, x) else kv)).lookup n =
      some x := by
  induction l with
  | nil => simp [List.lookup] at h
  | cons kv rest ih =>
    obtain ⟨k, v⟩ := kv
    by_cases hk : k = n
    · subst hk
      simp [List.lookup_cons]
    · have hb : (n == k) = false := beq_false_of_ne (fun hc => hk hc.symm)
      simp only [List.lookup_cons, hb, cond_false] at h
      simp only [List.map_cons, if_neg hk, List.lookup_cons, hb, cond_false]
      exact ih h

/-- `get_logger` on a fresh process state (the singleton not yet
registered): the returned logger carries exactly the one formatting
handler and is the logger registered under the module name. -/
theorem get_logger_fresh {st : LoggingState} {lvl : Nat} {f : Bool}
    (h : st.loggers.lookup LOGGER_NAME = none) :
    (get_logger lvl f st).2.handlers = [pynqHandler] ∧
    (get_logger lvl f st).1.loggers.lookup LOGGER_NAME =
      some (get_logger lvl f st).2 := by
  have hg : getLogger st LOGGER_NAME =
      ({ loggers :=
          st.loggers ++ [(LOGGER_NAME, { handlers := [], level := 0 })] },
        { handlers := [], level := 0 }) := by
    unfold getLogger
    rw [h]
  unfold get_logger setLogger
  rw [hg]
  simp only [List.nil_append, List.isEmpty_nil, ite_true, if_true]
  refine ⟨?_, ?_⟩
  · split <;> rfl
  · split <;> exact lookup_map_set (lookup_append_single h)

/-- `get_logger` when the singleton is already registered with the one
formatting handler: the handler list stays that one handler and the
returned logger is the registered one. -/
theorem get_logger_existing {st : LoggingState} {lvl : Nat} {f : Bool}
    {l0 : Logger} (h : st.loggers.lookup LOGGER_NAME = some l0)
    (hh : l0.handlers = [pynqHandler]) :
    (get_logger lvl f st).2.handlers = [pynqHandler] ∧
    (get_logger lvl f st).1.loggers.lookup LOGGER_NAME =
      some (get_logger lvl f st).2 := by
  have hg : getLogger st LOGGER_NAME = (st, l0) := by
    unfold getLogger
    rw [h]
  have hne : l0.handlers.isEmpty = false := by rw [hh]; rfl
  unfold get_logger setLogger
  rw [hg]
  simp only [hne, Bool.false_eq_true, ite_false, if_false]
  refine ⟨?_, ?_⟩
  · split <;> simp [hh]
  · split <;> exact lookup_map_set h

/-- An `ERROR` record renders as `ERROR: <msg>`. -/
theorem format_error_level (r : LogRecord) (h : r.levelno = 40) :
    format r = "ERROR: " ++ r.msg := by
  simp only [format, h, FORMATS, List.lookup, DEFAULT_FORMAT]
  norm_num
  apply String.ext
  show interpAux r _ _ = _
  simp [interpAux, readKey, substField, String.data_append]

/-- A `WARNING` record renders as `WARNING: <msg>`. -/
theorem format_warning_level (r : LogRecord) (h : r.levelno = 30) :
    format r = "WARNING: " ++ r.msg := by
  simp only [format, h, FORMATS, List.lookup, DEFAULT_FORMAT]
  norm_num
  apply String.ext
  show interpAux r _ _ = _
  simp [interpAux, readKey, substField, String.data_append]

/-- A `DEBUG` record renders with module name and line number. -/
theorem format_debug_level (r : LogRecord) (h : r.levelno = 10) :
    format r =
      "DEBUG: " ++ r.module ++ ": " ++ toString r.lineno ++ ": " ++ r.msg := by
  simp only [format, h, FORMATS, List.lookup, DEFAULT_FORMAT]
  norm_num
  apply String.ext
  show interpAux r _ _ = _
  simp [interpAux, readKey, substField, String.data_append]

/-- Any other level renders as the bare message. -/
theorem format_default_level (r : LogRecord) (h40 : r.levelno ≠ 40)
    (h30 : r.levelno ≠ 30) (h10 : r.levelno ≠ 10) : format r = r.msg := by
  have e40 : (r.levelno == 40) = false := by simpa using h40
  have e30 : (r.levelno == 30) = false := by simpa using h30
  have e10 : (r.levelno == 10) = false := by simpa using h10
  simp only [format, FORMATS, List.lookup, e40, e30, e10, Option.getD,
    DEFAULT_FORMAT]
  apply String.ext
  show interpAux r _ _ = _
  simp [interpAux, readKey, substField]

/-- C9: `_PynqLoggingFormatter` formats each record by severity —
`ERROR` as `ERROR: <msg>`, `WARNING` as `WARNING: <msg>`, `DEBUG` with
module name and line number, every other level as the bare message —
and `get_logger` is a process-wide singleton: starting from a state in
which the module's logger is not yet registered, every call returns
the logger registered under the module name, with the formatting
handler installed exactly once (also after repeated calls with
different level arguments). -/
theorem logging_format_by_severity_and_singleton :
    (∀ r : LogRecord,
      (r.levelno = 40 → format r = "ERROR: " ++ r.msg) ∧
      (r.levelno = 30 → format r = "WARNING: " ++ r.msg) ∧
      (r.levelno = 10 → format r =
        "DEBUG: " ++ r.module ++ ": " ++ toString r.lineno ++ ": " ++
          r.msg) ∧
      (r.levelno ≠ 40 → r.levelno ≠ 30 → r.levelno ≠ 10 →
        format r = r.msg)) ∧
    (∀ (st : LoggingState) (lvl lvl2 : Nat) (f f2 : Bool),
      st.loggers.lookup LOGGER_NAME = none →
      (get_logger lvl f st).2.handlers = [pynqHandler] ∧
      (get_logger lvl f st).1.loggers.lookup LOGGER_NAME =
        some (get_logger lvl f st).2 ∧
      (get_logger lvl2 f2 (get_logger lvl f st).1).2.handlers =
        [pynqHandler] ∧
      (get_logger lvl2 f2
          (get_logger lvl f st).1).1.loggers.lookup LOGGER_NAME =
        some (get_logger lvl2 f2 (get_logger lvl f st).1).2) := by
  refine ⟨?_, ?_⟩
  · intro r
    exact ⟨format_error_level r, format_warning_level r,
      format_debug_level r, format_default_level r⟩
  · intro st lvl lvl2 f f2 h
    obtain ⟨h1, h2⟩ := @get_logger_fresh st lvl f h
    obtain ⟨h3, h4⟩ := @get_logger_existing _ lvl2 f2 _ h2 h1
    exact ⟨h1, h2, h3, h4⟩

/-- Witness for C9 on concrete records and a fresh registry. -/
theorem logging_format_by_severity_and_singleton_witness :
    format ⟨40, "copy failed", "m", 3⟩ = "ERROR: copy failed" ∧
    format ⟨30, "no overlay", "m", 4⟩ = "WARNING: no overlay" ∧
    format ⟨10, "probing", "deliver", 7⟩ = "DEBUG: deliver: 7: probing" ∧
    format ⟨20, "hello", "m", 2⟩ = "hello" ∧
    (get_logger 20 false ⟨[]⟩).2.handlers = [pynqHandler] ∧
    (get_logger 10 true (get_logger 20 false ⟨[]⟩).1).2.handlers =
      [pynqHandler] := by
  have hf := logging_format_by_severity_and_singleton.1
  have hs := logging_format_by_severity_and_singleton.2 ⟨[]⟩ 20 10 false true
    rfl
  refine ⟨?_, ?_, ?_, ?_, hs.1, hs.2.2.1⟩
  · exact ((hf ⟨40, "copy failed", "m", 3⟩).1 rfl).trans rfl
  · exact ((hf ⟨30, "no overlay", "m", 4⟩).2.1 rfl).trans rfl
  · exact ((hf ⟨10, "probing", "deliver", 7⟩).2.2.1 rfl).trans rfl
  · exact (hf ⟨20, "hello", "m", 2⟩).2.2.2 (by decide) (by decide)
      (by decide)

end Logging

namespace BoardStore

/-- The order `strLeb` computes, as a relation on strings. -/
def Rle (a b : String) : Prop := strLeb a.data b.data = true

/-- `strLeb` is reflexive. -/
theorem strLeb_refl : ∀ l : List Char, strLeb l l = true := by
  intro l
  induction l with
  | nil => rfl
  | cons c cs ih => simp [strLeb, ih]

/-- `strLeb` is total. -/
theorem strLeb_total :
    ∀ a b : List Char, strLeb a b = true ∨ strLeb b a = true := by
  intro a
  induction a with
  | nil => intro b; left; rfl
  | cons x xs ih =>
    intro b
    cases b with
    | nil => right; rfl
    | cons y ys =>
      by_cases hxy : x.toNat < y.toNat
      · left; simp [strLeb, hxy]
      · by_cases hyx : y.toNat < x.toNat
        · right; simp [strLeb, hyx]
        · rcases ih ys with h | h
          · left
            rw [strLeb, if_neg hxy, if_neg hyx]
            exact h
          · right
            rw [strLeb, if_neg hyx, if_neg hxy]
            exact h

/-- `strLeb` is transitive. -/
theorem strLeb_trans :
    ∀ a b c : List Char, strLeb a b = true → strLeb b c = true →
      strLeb a c = true := by
  intro a
  induction a with
  | nil => intro b c _ _; rfl
  | cons x xs ih =>
    intro b c hab hbc
    cases b with
    | nil => exact absurd hab (by simp [strLeb])
    | cons y ys =>
      cases c with
      | nil => exact absurd hbc (by simp [strLeb])
      | cons z zs =>
        simp only [strLeb] at hab hbc ⊢
        by_cases h1 : x.toNat < y.toNat
        · by_cases h2 : y.toNat < z.toNat
          · rw [if_pos (Nat.lt_trans h1 h2)]
          · by_cases h3 : z.toNat < y.toNat
            · rw [if_neg h2, if_pos h3] at hbc
              exact absurd hbc (by simp)
            · rw [if_pos (by omega : x.toNat < z.toNat)]
        · by_cases h4 : y.toNat < x.toNat
          · rw [if_neg h1, if_pos h4] at hab
            exact absurd hab (by simp)
          · rw [if_neg h1, if_neg h4] at hab
            by_cases h2 : y.toNat < z.toNat
            · rw [if_pos (by omega : x.toNat < z.toNat)]
            · by_cases h3 : z.toNat < y.toNat
              · rw [if_neg h2, if_pos h3] at hbc
                exact absurd hbc (by simp)
              · rw [if_neg h2, if_neg h3] at hbc
                rw [if_neg (by omega : ¬ x.toNat < z.toNat),
                  if_neg (by omega : ¬ z.toNat < x.toNat)]
                exact ih ys zs hab hbc

/-- Membership through `insertStr`. -/
theorem mem_insertStr {a x : String} :
    ∀ {l : List String}, a ∈ insertStr x l ↔ a = x ∨ a ∈ l := by
  intro l
  induction l with
  | nil => simp [insertStr]
  | cons y ys ih =>
    rw [insertStr]
    by_cases h : strLeb x.data y.data = true
    · rw [if_pos h]
      simp
    · rw [if_neg h]
      simp only [List.mem_cons, ih]
      tauto

/-- `insertStr` preserves sortedness. -/
theorem sorted_insertStr {x : String} :
    ∀ {l : List String}, l.Sorted Rle → (insertStr x l).Sorted Rle := by
  intro l
  induction l with
  | nil => intro _; simp [insertStr, List.Sorted]
  | cons y ys ih =>
    intro h
    rw [List.sorted_cons] at h
    rw [insertStr]
    by_cases hxy : strLeb x.data y.data = true
    · rw [if_pos hxy]
      rw [List.sorted_cons]
      refine ⟨?_, List.sorted_cons.mpr h⟩
      intro b hb
      rcases List.mem_cons.mp hb with rfl | hb2
      · exact hxy
      · exact strLeb_trans _ _ _ hxy (h.1 b hb2)
    · rw [if_neg hxy]
      rw [List.sorted_cons]
      refine ⟨?_, ih h.2⟩
      intro b hb
      rcases mem_insertStr.mp hb with rfl | hb2
      · rcases strLeb_total b.data y.data with hc | hc
        · exact absurd hc hxy
        · exact hc
      · exact h.1 b hb2

/-- `pySort` sorts. -/
theorem sorted_pySort (l : List String) : (pySort l).Sorted Rle := by
  induction l with
  | nil => simp [pySort, List.Sorted]
  | cons x xs ih => exact sorted_insertStr ih

/-- `pySort` permutes membership. -/
theorem mem_pySort {a : String} :
    ∀ {l : List String}, a ∈ pySort l ↔ a ∈ l := by
  intro l
  induction l with
  | nil => simp [pySort]
  | cons x xs ih =>
    show a ∈ insertStr x (pySort xs) ↔ _
    rw [mem_insertStr, ih]
    simp

/-- In a sorted list, the last element dominates every member. -/
theorem sorted_le_getLast :
    ∀ {L : List String} (h : L.Sorted Rle) (hne : L ≠ []) (a : String),
      a ∈ L → Rle a (L.getLast hne) := by
  intro L
  induction L with
  | nil => intro _ hne; exact absurd rfl hne
  | cons y ys ih =>
    intro h hne a ha
    rw [List.sorted_cons] at h
    cases ys with
    | nil =>
      have hay : a = y := by simpa using ha
      subst hay
      show strLeb a.data a.data = true
      exact strLeb_refl a.data
    | cons z zs =>
      rw [List.getLast_cons (by simp)]
      rcases List.mem_cons.mp ha with rfl | ha2
      · exact h.1 _ (List.getLast_mem (by simp))
      · exact ih h.2 (by simp) a ha2

/-- `dictInsert` never produces the empty dict. -/
theorem dictInsert_ne_nil {α : Type} (k : String) (v : α) :
    ∀ l : List (String × α), dictInsert k v l ≠ [] := by
  intro l
  cases l with
  | nil => simp [dictInsert]
  | cons kv rest =>
    rw [dictInsert]
    split <;> simp

/-- Fold step of `resolve_paths` keeps a nonempty accumulator
nonempty. -/
theorem resolve_paths_acc_ne (boardXmls : List (List String)) :
    ∀ acc : List (String × List String), acc ≠ [] →
      boardXmls.foldl
        (fun version_dict xmlPath =>
          match secondToLast xmlPath with
          | some ver => dictInsert ver xmlPath version_dict
          | none => version_dict) acc ≠ [] := by
  induction boardXmls with
  | nil => intro acc h; simpa using h
  | cons p ps ih =>
    intro acc h
    rw [List.foldl_cons]
    cases hs : secondToLast p with
    | none => exact ih acc h
    | some ver => exact ih _ (dictInsert_ne_nil ver p acc)

/-- A path of length at least two has a version-directory component. -/
theorem secondToLast_isSome {p : List String} (h : 2 ≤ p.length) :
    ∃ v, secondToLast p = some v := by
  unfold secondToLast
  cases hp : p.reverse.drop 1 with
  | nil =>
    exfalso
    have := congrArg List.length hp
    simp at this
    omega
  | cons v rest => exact ⟨v, rfl⟩

/-- On a board folder with at least one `board.xml`, `resolve_paths`
produces a nonempty version dict. -/
theorem resolve_paths_ne_nil {boardXmls : List (List String)}
    (hne : boardXmls ≠ []) (hlen : ∀ p ∈ boardXmls, 2 ≤ p.length) :
    resolve_paths boardXmls ≠ [] := by
  cases boardXmls with
  | nil => exact absurd rfl hne
  | cons p ps =>
    unfold resolve_paths
    rw [List.foldl_cons]
    obtain ⟨v, hv⟩ := secondToLast_isSome (hlen p (by simp))
    rw [hv]
    exact resolve_paths_acc_ne ps _ (dictInsert_ne_nil v p [])

/-- A key of the dict is found by `dictLookup`. -/
theorem dictLookup_of_mem_keys {α : Type} {k : String} :
    ∀ {l : List (String × α)}, k ∈ l.map Prod.fst →
      ∃ v, dictLookup k l = some v := by
  intro l
  induction l with
  | nil => intro h; simp at h
  | cons kv rest ih =>
    intro h
    obtain ⟨k', v'⟩ := kv
    by_cases hk : k' = k
    · subst hk
      exact ⟨v', by simp [dictLookup]⟩
    · rw [List.map_cons] at h
      rcases List.mem_cons.mp h with h1 | h2
      · exact absurd h1.symm hk
      · obtain ⟨v, hv⟩ := ih h2
        exact ⟨v, by simpa [dictLookup, hk] using hv⟩

/-- C10: for a board folder containing at least one `board.xml`
(every walked path has the folder and file component), `Board.__init__`
succeeds; the selected current version is a version-directory name that
dominates every version-directory name in the code-point order Python's
sort uses (i.e. it is the last element of the lexicographically sorted
version list); the selected `board.xml` is the one stored under that
version; and the part name and file version come from the `part0`
component's `part_name` attribute and the `file_version` element text
of that selected file. -/
theorem board_init_fields (boardXmls : List (List String))
    (parse : List String → XmlElem)
    (hne : boardXmls ≠ []) (hlen : ∀ p ∈ boardXmls, 2 ≤ p.length) :
    ∃ b : Board, boardInit boardXmls parse = some b ∧
      b.current_version ∈ (resolve_paths boardXmls).map Prod.fst ∧
      (∀ v ∈ (resolve_paths boardXmls).map Prod.fst,
        strLeb v.data b.current_version.data = true) ∧
      dictLookup b.current_version (resolve_paths boardXmls) =
        some b.board_xml_path ∧
      b.part_name =
        ((parse b.board_xml_path).find "components").bind (fun comps =>
          (comps.children.find? (fun c =>
            attrLookup "name" c.attrs = some "part0")).bind (fun c =>
              attrLookup "part_name" c.attrs)) ∧
      b.fileVersion =
        ((parse b.board_xml_path).find "file_version").bind
          XmlElem.text := by
  have hdict := resolve_paths_ne_nil hne hlen
  have hkeys : (resolve_paths boardXmls).map Prod.fst ≠ [] := by
    intro hc
    exact hdict (List.map_eq_nil_iff.mp hc)
  have hsortne : pySort ((resolve_paths boardXmls).map Prod.fst) ≠ [] := by
    intro hc
    cases hk : (resolve_paths boardXmls).map Prod.fst with
    | nil => exact hkeys hk
    | cons a as =>
      have : a ∈ pySort ((resolve_paths boardXmls).map Prod.fst) :=
        mem_pySort.mpr (by rw [hk]; simp)
      rw [hc] at this
      simp at this
  set keys := (resolve_paths boardXmls).map Prod.fst with hkeysdef
  have hlast : (pySort keys).getLast? =
      some ((pySort keys).getLast hsortne) := List.getLast?_eq_getLast _ _
  set latest := (pySort keys).getLast hsortne with hlatestdef
  have hlatest_mem : latest ∈ keys :=
    mem_pySort.mp (List.getLast_mem hsortne)
  obtain ⟨xmlPath, hxml⟩ := dictLookup_of_mem_keys hlatest_mem
  refine ⟨⟨latest, pySort keys, xmlPath, find_part (parse xmlPath),
    file_version (parse xmlPath)⟩, ?_, ?_, ?_, ?_, ?_, ?_⟩
  · have hrv : resolve_version (resolve_paths boardXmls) =
        some (latest, pySort keys) := by
      unfold resolve_version
      rw [← hkeysdef, hlast]
    unfold boardInit
    simp only [hrv, hxml]
  · exact hlatest_mem
  · intro v hv
    exact sorted_le_getLast (sorted_pySort keys) hsortne v
      (mem_pySort.mpr hv)
  · exact hxml
  · show find_part (parse xmlPath) = _
    unfold find_part
    cases (parse xmlPath).find "components" with
    | none => rfl
    | some comps =>
      show (match comps.children.find?
          (fun child => attrLookup "name" child.attrs = some "part0") with
        | some child => attrLookup "part_name" child.attrs
        | none => none) =
        (comps.children.find? (fun c =>
          attrLookup "name" c.attrs = some "part0")).bind (fun c =>
            attrLookup "part_name" c.attrs)
      cases comps.children.find? (fun child =>
          attrLookup "name" child.attrs = some "part0") with
      | none => rfl
      | some c => rfl
  · rfl

/-- Witness for C10 on a board folder with versions `1.0` and `1.1`:
`Board.__init__` succeeds and the selected version dominates both. -/
theorem board_init_fields_witness :
    2 ≤ (["Pynq-Z1", "1.0", "board.xml"] : List String).length ∧
    (boardInit [["Pynq-Z1", "1.0", "board.xml"],
        ["Pynq-Z1", "1.1", "board.xml"]]
      (fun _ =>
        XmlElem.mk "board" [("name", "pynq-z1")] none
          [XmlElem.mk "file_version" [] (some "1.1") [],
           XmlElem.mk "components" [] none
             [XmlElem.mk "component"
               [("name", "part0"), ("part_name", "xc7z020clg400-1")]
               none []]])).isSome = true ∧
    strLeb ("1.0" : String).data ("1.1" : String).data = true := by
  obtain ⟨b, hb, hmem, hmax, hlook, hpart, hfile⟩ := board_init_fields
    [["Pynq-Z1", "1.0", "board.xml"], ["Pynq-Z1", "1.1", "board.xml"]]
    (fun _ =>
      XmlElem.mk "board" [("name", "pynq-z1")] none
        [XmlElem.mk "file_version" [] (some "1.1") [],
         XmlElem.mk "components" [] none
           [XmlElem.mk "component"
             [("name", "part0"), ("part_name", "xc7z020clg400-1")]
             none []]])
    (by simp) (by decide)
  refine ⟨by decide, ?_, by decide⟩
  rw [hb]
  rfl

end BoardStore

namespace DeliverNotebooks

/-- If a folder's file list contains the failing `.link` file (and no
other `.link` files), processing the file loop raises its
`OverlayNotFoundError`. -/
theorem process_files_err (env : DeliverEnv)
    (device_name overlay_res_link root dst_fullpath relpath : String)
    (hlink : strEndsWith overlay_res_link ".link" = true)
    (hres : _resolve_overlay_res_from_link env device_name overlay_res_link
      root dst_fullpath relpath =
      Except.error (PyExc.overlayNotFound
        (splitext overlay_res_link).1)) :
    ∀ files : List String, overlay_res_link ∈ files →
      (∀ f ∈ files, strEndsWith f ".link" = true → f = overlay_res_link) →
      process_files env device_name root dst_fullpath relpath true files =
        Except.error (PyExc.overlayNotFound (splitext overlay_res_link).1) := by
  intro files
  induction files with
  | nil => intro h; exact absurd h (by simp)
  | cons f fs ih =>
    intro hmem honly
    by_cases hf : f = overlay_res_link
    · subst hf
      rw [process_files, if_pos hlink, if_pos rfl, hres]
    · have hnotlink : strEndsWith f ".link" = false := by
        cases hcase : strEndsWith f ".link" with
        | false => rfl
        | true => exact absurd (honly f (by simp) hcase) hf
      have hmem2 : overlay_res_link ∈ fs := by
        rcases List.mem_cons.mp hmem with h1 | h2
        · exact absurd h1.symm hf
        · exact h2
      have honly2 : ∀ g ∈ fs, strEndsWith g ".link" = true →
          g = overlay_res_link := fun g hg => honly g (by simp [hg])
      rw [process_files, hnotlink]
      simp only [Bool.false_eq_true, if_false, ih hmem2 honly2]

/-- C1: for every filesystem/manifest environment and device name, the
`.link`-driven resolution of `overlay_res.ext` tries, in this order:
(1) an existing local `overlay_res.ext` next to the notebooks — chosen
for every device name, i.e. with no device-based resolution; (2) the
file `overlay_res.device_name.ext` inside the `overlay_res.ext.d`
folder; (3) a download using the manifest entry that
`_find_remote_overlay_res` associates with `device_name` in the
`overlay_res.ext.link` JSON file; and when all three fail (the manifest
has no usable entry, or the download fails its checksum)
`OverlayNotFoundError` is raised and the folder processed by
`deliver_notebooks` contributes no entries at all — its notebooks are
excluded from delivery. -/
theorem deliver_link_resolution_priority (env : DeliverEnv)
    (device_name overlay_res_link root dst_fullpath relpath : String) :
    (env.isFile (ospJoin root (splitext overlay_res_link).1) = true →
      ∀ dev : String,
        _resolve_overlay_res_from_link env dev overlay_res_link root
          dst_fullpath relpath =
        Except.ok ([(ospJoin root (splitext overlay_res_link).1,
          ospJoin (ospJoin dst_fullpath relpath)
            (splitext overlay_res_link).1)], [])) ∧
    (env.isFile (ospJoin root (splitext overlay_res_link).1) = false →
      env.isFile (ospJoin
          (ospJoin root ((splitext overlay_res_link).1 ++ ".d"))
          ((splitext (splitext overlay_res_link).1).1 ++ "." ++
            device_name ++ (splitext (splitext overlay_res_link).1).2)) =
        true →
      _resolve_overlay_res_from_link env device_name overlay_res_link root
        dst_fullpath relpath =
      Except.ok ([(ospJoin
          (ospJoin root ((splitext overlay_res_link).1 ++ ".d"))
          ((splitext (splitext overlay_res_link).1).1 ++ "." ++
            device_name ++ (splitext (splitext overlay_res_link).1).2),
        ospJoin (ospJoin dst_fullpath relpath)
          (splitext overlay_res_link).1)], [])) ∧
    (∀ d : Json,
      env.isFile (ospJoin root (splitext overlay_res_link).1) = false →
      env.isFile (ospJoin
          (ospJoin root ((splitext overlay_res_link).1 ++ ".d"))
          ((splitext (splitext overlay_res_link).1).1 ++ "." ++
            device_name ++ (splitext (splitext overlay_res_link).1).2)) =
        false →
      _find_remote_overlay_res (some device_name)
        (env.linkContent (ospJoin root overlay_res_link)) = some d →
      env.download d = DownloadOutcome.ok →
      _resolve_overlay_res_from_link env device_name overlay_res_link root
        dst_fullpath relpath =
      Except.ok ([], [(env.tmpFile,
        ospJoin (ospJoin dst_fullpath relpath)
          (splitext overlay_res_link).1)])) ∧
    (env.isFile (ospJoin root (splitext overlay_res_link).1) = false →
      env.isFile (ospJoin
          (ospJoin root ((splitext overlay_res_link).1 ++ ".d"))
          ((splitext (splitext overlay_res_link).1).1 ++ "." ++
            device_name ++ (splitext (splitext overlay_res_link).1).2)) =
        false →
      (_find_remote_overlay_res (some device_name)
          (env.linkContent (ospJoin root overlay_res_link)) = none ∨
        ∃ d : Json,
          _find_remote_overlay_res (some device_name)
            (env.linkContent (ospJoin root overlay_res_link)) = some d ∧
          env.download d = DownloadOutcome.checksumError) →
      _resolve_overlay_res_from_link env device_name overlay_res_link root
        dst_fullpath relpath =
        Except.error (PyExc.overlayNotFound (splitext overlay_res_link).1) ∧
      (strEndsWith overlay_res_link ".link" = true →
        ∀ files : List String, overlay_res_link ∈ files →
        (∀ f ∈ files, strEndsWith f ".link" = true →
          f = overlay_res_link) →
        deliver_folder env device_name root dst_fullpath relpath true []
          files = Except.ok ([], []))) := by
  refine ⟨?_, ?_, ?_, ?_⟩
  · intro hloc dev
    simp [_resolve_overlay_res_from_link, _find_local_overlay_res, hloc]
  · intro hloc hd
    simp [_resolve_overlay_res_from_link, _find_local_overlay_res, hloc, hd]
  · intro d hloc hd hrem hdl
    simp [_resolve_overlay_res_from_link, _find_local_overlay_res, hloc, hd,
      hrem, hdl]
  · intro hloc hd hfail
    have hres : _resolve_overlay_res_from_link env device_name
        overlay_res_link root dst_fullpath relpath =
        Except.error (PyExc.overlayNotFound
          (splitext overlay_res_link).1) := by
      rcases hfail with hnone | ⟨d, hsome, hck⟩
      · simp [_resolve_overlay_res_from_link, _find_local_overlay_res,
          hloc, hd, hnone]
      · simp [_resolve_overlay_res_from_link, _find_local_overlay_res,
          hloc, hd, hsome, hck]
    refine ⟨hres, ?_⟩
    intro hlink files hmem honly
    unfold deliver_folder process_dirs
    rw [process_files_err env device_name overlay_res_link root
      dst_fullpath relpath hlink hres files hmem honly]

/-- Witness for C1: an environment in which nothing exists locally and
the manifest is empty — the folder contributes nothing; and one in
which the local file exists — it is copied. -/
theorem deliver_link_resolution_priority_witness :
    deliver_folder
      ⟨fun _ => false, fun _ => [], fun _ => DownloadOutcome.ok, "/tmp/t"⟩
      "pynq-z1" "nb" "dst" "" true [] ["intro.ipynb", "base.bit.link"] =
      Except.ok ([], []) ∧
    _resolve_overlay_res_from_link
      ⟨fun _ => true, fun _ => [], fun _ => DownloadOutcome.ok, "/tmp/t"⟩
      "pynq-z1" "base.bit.link" "nb" "dst" "" =
      Except.ok ([("nb/base.bit", "dst/base.bit")], []) := by
  constructor
  · exact (((deliver_link_resolution_priority
      ⟨fun _ => false, fun _ => [], fun _ => DownloadOutcome.ok, "/tmp/t"⟩
      "pynq-z1" "base.bit.link" "nb" "dst" "").2.2.2 rfl rfl
      (Or.inl rfl)).2 (by decide) ["intro.ipynb", "base.bit.link"]
      (by decide) (by decide))
  · exact ((deliver_link_resolution_priority
      ⟨fun _ => true, fun _ => [], fun _ => DownloadOutcome.ok, "/tmp/t"⟩
      "pynq-z1" "base.bit.link" "nb" "dst" "").1 rfl "pynq-z1").trans
      (by rfl)

/-- Pruning empty parent directories never touches files. -/
theorem pruneEmptyDirs_files : ∀ (p : List String) (fs : FS),
    (pruneEmptyDirs fs p).files = fs.files := by
  intro p fs
  induction fs, p using pruneEmptyDirs.induct with
  | case1 fs => rw [pruneEmptyDirs]
  | case2 fs x rest hc ih =>
    rw [pruneEmptyDirs]
    simp only [if_pos hc]
    exact ih
  | case3 fs x rest hc =>
    rw [pruneEmptyDirs]
    simp only [if_neg hc]

/-- Pruning only removes directories. -/
theorem pruneEmptyDirs_dirs_subset : ∀ (p : List String) (fs : FS),
    (pruneEmptyDirs fs p).dirs ⊆ fs.dirs := by
  intro p fs
  induction fs, p using pruneEmptyDirs.induct with
  | case1 fs =>
    rw [pruneEmptyDirs]
    exact fun q hq => hq
  | case2 fs x rest hc ih =>
    rw [pruneEmptyDirs]
    simp only [if_pos hc]
    intro q hq
    exact (List.mem_filter.mp (ih hq)).1
  | case3 fs x rest hc =>
    rw [pruneEmptyDirs]
    simp only [if_neg hc]
    exact fun q hq => hq

/-- Rolling back one destination only removes files. -/
theorem roll_back_one_files_subset (fs : FS) (dst : List String) :
    (roll_back_one fs dst).files ⊆ fs.files := by
  unfold roll_back_one
  split
  · rw [pruneEmptyDirs_files]
    intro q hq
    exact (List.mem_filter.mp hq).1
  · split
    · intro q hq
      exact (List.mem_filter.mp hq).1
    · exact fun q hq => hq

/-- Rolling back one destination only removes directories. -/
theorem roll_back_one_dirs_subset (fs : FS) (dst : List String) :
    (roll_back_one fs dst).dirs ⊆ fs.dirs := by
  unfold roll_back_one
  split
  · intro q hq
    exact pruneEmptyDirs_dirs_subset dst (fs.removeFile dst) hq
  · split
    · intro q hq
      exact (List.mem_filter.mp hq).1
    · exact fun q hq => hq

/-- Reading `FS.disjoint`. -/
theorem disjoint_spec {fs : FS} (h : fs.disjoint = true) :
    ∀ p, p ∈ fs.files → p ∉ fs.dirs := by
  intro p hp hd
  have hall := List.all_eq_true.mp h p hp
  simp only [decide_eq_true_eq] at hall
  exact hall (List.elem_iff.mpr hd)

/-- Shrinking both components preserves disjointness. -/
theorem disjoint_of_subsets {fs fs2 : FS} (h : fs.disjoint = true)
    (hf : fs2.files ⊆ fs.files) (hd : fs2.dirs ⊆ fs.dirs) :
    fs2.disjoint = true := by
  rw [FS.disjoint, List.all_eq_true]
  intro q hq
  simp only [decide_eq_true_eq]
  intro hc
  exact disjoint_spec h q (hf hq) (hd (List.elem_iff.mp hc))

/-- After rolling back one destination, that destination is neither a
file nor a directory. -/
theorem roll_back_one_clears {fs : FS} (h : fs.disjoint = true)
    (dst : List String) :
    dst ∉ (roll_back_one fs dst).files ∧
    dst ∉ (roll_back_one fs dst).dirs := by
  unfold roll_back_one
  split
  · rename_i hfile
    refine ⟨?_, ?_⟩
    · rw [pruneEmptyDirs_files]
      intro hm
      have := (List.mem_filter.mp hm).2
      simp at this
    · intro hm
      have hmem : dst ∈ fs.dirs :=
        pruneEmptyDirs_dirs_subset dst (fs.removeFile dst) hm
      exact disjoint_spec h dst (List.elem_iff.mp hfile) hmem
  · rename_i hnotfile
    split
    · refine ⟨?_, ?_⟩ <;>
        · intro hm
          have := (List.mem_filter.mp hm).2
          simp [List.isPrefixOf_iff_prefix] at this
    · rename_i hnotdir
      refine ⟨?_, ?_⟩
      · intro hm
        exact hnotfile (List.elem_iff.mpr hm)
      · intro hm
        exact hnotdir (List.elem_iff.mpr hm)

/-- Folding the roll-back over a destination list clears every listed
destination, only ever removing entries. -/
theorem roll_back_fold : ∀ (dsts : List (List String)) (fs : FS),
    fs.disjoint = true →
    (dsts.foldl roll_back_one fs).disjoint = true ∧
    (dsts.foldl roll_back_one fs).files ⊆ fs.files ∧
    (dsts.foldl roll_back_one fs).dirs ⊆ fs.dirs ∧
    ∀ dst ∈ dsts, dst ∉ (dsts.foldl roll_back_one fs).files ∧
      dst ∉ (dsts.foldl roll_back_one fs).dirs := by
  intro dsts
  induction dsts with
  | nil =>
    intro fs h
    exact ⟨h, fun q hq => hq, fun q hq => hq, by simp⟩
  | cons d ds ih =>
    intro fs h
    rw [List.foldl_cons]
    have h1 : (roll_back_one fs d).disjoint = true :=
      disjoint_of_subsets h (roll_back_one_files_subset fs d)
        (roll_back_one_dirs_subset fs d)
    obtain ⟨hd2, hf2, hdir2, hclear2⟩ := ih (roll_back_one fs d) h1
    refine ⟨hd2,
      fun q hq => roll_back_one_files_subset fs d (hf2 hq),
      fun q hq => roll_back_one_dirs_subset fs d (hdir2 hq), ?_⟩
    intro dst hdst
    rcases List.mem_cons.mp hdst with rfl | hmem
    · have hc := roll_back_one_clears h dst
      exact ⟨fun hm => hc.1 (hf2 hm), fun hm => hc.2 (hdir2 hm)⟩
    · exact hclear2 dst hmem

/-- C2: if the copy-and-move phase raises after any number of completed
operations (any `Exception` or `KeyboardInterrupt`), then — provided the
intermediate filesystem is a real one, with no path both file and
directory — the delivery re-raises with `_roll_back_copy` applied
first, and in the resulting filesystem every destination recorded in
`files_to_copy` and `files_to_move` exists neither as a file nor as a
directory: a failed delivery leaves no partial copies at the
destination. -/
theorem deliver_rollback_on_exception (fs : FS)
    (files_to_copy files_to_move : List (List String × List String))
    (failAt : Nat)
    (hfail : (_copy_and_move_files fs files_to_copy files_to_move
      failAt).2 = true)
    (hdisj : (_copy_and_move_files fs files_to_copy files_to_move
      failAt).1.disjoint = true) :
    deliver_copy_phase fs files_to_copy files_to_move failAt =
      Except.error (_roll_back_copy
        (_copy_and_move_files fs files_to_copy files_to_move failAt).1
        files_to_copy files_to_move) ∧
    ∀ dst ∈ files_to_copy.map Prod.snd ++ files_to_move.map Prod.snd,
      (_roll_back_copy
        (_copy_and_move_files fs files_to_copy files_to_move failAt).1
        files_to_copy files_to_move).isFile dst = false ∧
      (_roll_back_copy
        (_copy_and_move_files fs files_to_copy files_to_move failAt).1
        files_to_copy files_to_move).isDir dst = false := by
  constructor
  · simp only [deliver_copy_phase, hfail, if_true, ite_true]
  · intro dst hdst
    obtain ⟨hdj1, hsubf1, hsubd1, hclear1⟩ := roll_back_fold
      (files_to_copy.map Prod.snd)
      (_copy_and_move_files fs files_to_copy files_to_move failAt).1 hdisj
    obtain ⟨hdj2, hsubf2, hsubd2, hclear2⟩ := roll_back_fold
      (files_to_move.map Prod.snd)
      ((files_to_copy.map Prod.snd).foldl roll_back_one
        (_copy_and_move_files fs files_to_copy files_to_move failAt).1)
      hdj1
    have hgoal : dst ∉ (_roll_back_copy
        (_copy_and_move_files fs files_to_copy files_to_move failAt).1
        files_to_copy files_to_move).files ∧
        dst ∉ (_roll_back_copy
          (_copy_and_move_files fs files_to_copy files_to_move failAt).1
          files_to_copy files_to_move).dirs := by
      rcases List.mem_append.mp hdst with hc | hm
      · have hc1 := hclear1 dst hc
        exact ⟨fun hm2 => hc1.1 (hsubf2 hm2), fun hm2 => hc1.2 (hsubd2 hm2)⟩
      · exact hclear2 dst hm
    refine ⟨?_, ?_⟩
    · cases hcase : (_roll_back_copy
          (_copy_and_move_files fs files_to_copy files_to_move failAt).1
          files_to_copy files_to_move).isFile dst with
      | false => rfl
      | true => exact absurd (List.elem_iff.mp hcase) hgoal.1
    · cases hcase : (_roll_back_copy
          (_copy_and_move_files fs files_to_copy files_to_move failAt).1
          files_to_copy files_to_move).isDir dst with
      | false => rfl
      | true => exact absurd (List.elem_iff.mp hcase) hgoal.2

/-- Witness for C2: two copies and one move, interrupted after the
first copy completed (destination `dst/a.ipynb` already created); the
roll-back leaves none of the three destinations behind. -/
theorem deliver_rollback_on_exception_witness :
    (_copy_and_move_files
      ⟨[["src", "a.ipynb"], ["src", "b.ipynb"], ["tmp", "t0"]], [["dst"]]⟩
      [(["src", "a.ipynb"], ["dst", "a.ipynb"]),
       (["src", "b.ipynb"], ["dst", "b.ipynb"])]
      [(["tmp", "t0"], ["dst", "base.bit"])] 1).2 = true ∧
    (_copy_and_move_files
      ⟨[["src", "a.ipynb"], ["src", "b.ipynb"], ["tmp", "t0"]], [["dst"]]⟩
      [(["src", "a.ipynb"], ["dst", "a.ipynb"]),
       (["src", "b.ipynb"], ["dst", "b.ipynb"])]
      [(["tmp", "t0"], ["dst", "base.bit"])] 1).1.isFile
      ["dst", "a.ipynb"] = true ∧
    (_copy_and_move_files
      ⟨[["src", "a.ipynb"], ["src", "b.ipynb"], ["tmp", "t0"]], [["dst"]]⟩
      [(["src", "a.ipynb"], ["dst", "a.ipynb"]),
       (["src", "b.ipynb"], ["dst", "b.ipynb"])]
      [(["tmp", "t0"], ["dst", "base.bit"])] 1).1.disjoint = true ∧
    ∀ dst ∈ [(["src", "a.ipynb"], ["dst", "a.ipynb"]),
        (["src", "b.ipynb"], ["dst", "b.ipynb"])].map Prod.snd ++
        [((["tmp", "t0"] : List String),
          (["dst", "base.bit"] : List String))].map Prod.snd,
      (_roll_back_copy
        (_copy_and_move_files
          ⟨[["src", "a.ipynb"], ["src", "b.ipynb"], ["tmp", "t0"]],
            [["dst"]]⟩
          [(["src", "a.ipynb"], ["dst", "a.ipynb"]),
           (["src", "b.ipynb"], ["dst", "b.ipynb"])]
          [(["tmp", "t0"], ["dst", "base.bit"])] 1).1
        [(["src", "a.ipynb"], ["dst", "a.ipynb"]),
         (["src", "b.ipynb"], ["dst", "b.ipynb"])]
        [(["tmp", "t0"], ["dst", "base.bit"])]).isFile dst = false ∧
      (_roll_back_copy
        (_copy_and_move_files
          ⟨[["src", "a.ipynb"], ["src", "b.ipynb"], ["tmp", "t0"]],
            [["dst"]]⟩
          [(["src", "a.ipynb"], ["dst", "a.ipynb"]),
           (["src", "b.ipynb"], ["dst", "b.ipynb"])]
          [(["tmp", "t0"], ["dst", "base.bit"])] 1).1
        [(["src", "a.ipynb"], ["dst", "a.ipynb"]),
         (["src", "b.ipynb"], ["dst", "b.ipynb"])]
        [(["tmp", "t0"], ["dst", "base.bit"])]).isDir dst = false := by
  refine ⟨by decide, by decide, by decide, ?_⟩
  exact (deliver_rollback_on_exception
    ⟨[["src", "a.ipynb"], ["src", "b.ipynb"], ["tmp", "t0"]], [["dst"]]⟩
    [(["src", "a.ipynb"], ["dst", "a.ipynb"]),
     (["src", "b.ipynb"], ["dst", "b.ipynb"])]
    [(["tmp", "t0"], ["dst", "base.bit"])] 1 (by decide) (by decide)).2

end DeliverNotebooks

end PynqUtils
